import Mathlib

/-!
Shallow embedding of the scraping wire-protocol client
(`scraping/main.py`): the framing codec (`add_length_header`,
`consume_length_header`), the acknowledgment classifier
(`accept_status`) and the session driver (`mainRun`), together with
proofs about the spec's claims.

Bytes are modelled as `List Char` (every byte value is a `Char`; all
protocol constants are ASCII).  Python's fallible operations
(`int(...)`, `recv` with a negative size, uncaught exceptions) are
modelled with `Option` / explicit fatal outcomes.
-/

namespace GoodNews

/-- Python whitespace as used by `bytes.strip()` with no argument and by
`int()`: space, tab, newline, carriage return, vertical tab, form feed. -/
def isWs (c : Char) : Bool :=
  c = ' ' || c = '\t' || c = '\n' || c = '\r' || c = Char.ofNat 11 || c = Char.ofNat 12

/-- Python `bytes.strip(chars)`: drop characters
satisfying `p` from both ends. -/
def trimBoth (p : Char → Bool) (s : List Char) : List Char :=
  ((s.dropWhile p).reverse.dropWhile p).reverse

/-- The character set of the Python literal `b'<length> '` passed to
`bytes.strip` in `consume_length_header`. -/
def inStrip (c : Char) : Bool :=
  c = '<' || c = 'l' || c = 'e' || c = 'n' || c = 'g' || c = 't' ||
  c = 'h' || c = '>' || c = ' '

/-- Decimal value of a digit string (most significant digit first). -/
def digitsToNat (s : List Char) : Nat :=
  s.foldl (fun a c => a * 10 + (c.toNat - 48)) 0

/-- After a digit, a Python integer literal may continue with digits, or
with a single underscore that must be followed by a digit. -/
def usAfterDigit : List Char → Bool
  | [] => true
  | [c] => c.isDigit
  | c :: c2 :: rest =>
    if c = '_' then c2.isDigit && usAfterDigit rest
    else c.isDigit && usAfterDigit (c2 :: rest)

/-- Unsigned part of Python's `int()` on ASCII bytes: one or more decimal
digits with single underscores allowed between digits. -/
def parseUnsigned (s : List Char) : Option Nat :=
  match s with
  | [] => none
  | c :: rest =>
    if c.isDigit && usAfterDigit rest then
      some (digitsToNat (s.filter fun x => x ≠ '_'))
    else none

/-- Python `int(b, 10)` on bytes: strip ASCII whitespace from both ends,
then an optional sign followed by an underscore-separated digit string.
`none` models a raised `ValueError`. -/
def pyInt (s : List Char) : Option Int :=
  match trimBoth isWs s with
  | [] => none
  | c :: rest =>
    if c = '+' then (parseUnsigned rest).map Int.ofNat
    else if c = '-' then (parseUnsigned rest).map (fun m => -(m : Int))
    else (parseUnsigned (c :: rest)).map Int.ofNat

/-- Python `bytes.ljust(w)`: pad with spaces on the right up to width `w`;
a string already at least `w` long is returned unchanged. -/
def pyLjust (s : List Char) (w : Nat) : List Char :=
  s ++ List.replicate (w - s.length) ' '

/-- The bytes of the Python literal `b'<length '`. -/
def lengthOpen : List Char := ['<', 'l', 'e', 'n', 'g', 't', 'h', ' ']

/-- The header text `b'<length ' + str(len(data)).encode() + b'>'` before
padding. -/
def headerText (n : Nat) : List Char :=
  lengthOpen ++ (Nat.repr n).toList ++ ['>']

/-- Embeds `add_length_header(data)`: `(b'<length ' + length + b'>').ljust(32) + data`. -/
def add_length_header (data : List Char) : List Char :=
  pyLjust (headerText data.length) 32 ++ data

/-- Embeds `consume_length_header` applied to the bytes returned by `recv(32)`:
`int(raw_header.strip(b'<length> '))`; `none` models the `ValueError`
raised by `int` on an unparseable remainder. -/
def consume_length_header (raw : List Char) : Option Int :=
  pyInt (trimBoth inStrip raw)

/-- The accepted-status sentinel `b'MSG-OK-DONE'`. -/
def msgOkDone : List Char := ['M', 'S', 'G', '-', 'O', 'K', '-', 'D', 'O', 'N', 'E']

/-- The bytes of `b'MSG-'`. -/
def msgStartTok : List Char := ['M', 'S', 'G', '-']

/-- The bytes of `b'-DONE'`. -/
def msgEndTok : List Char := ['-', 'D', 'O', 'N', 'E']

/-- The control token `b'NEXT'`. -/
def nextTok : List Char := ['N', 'E', 'X', 'T']

/-- The control token `b'DONE'`. -/
def doneTok : List Char := ['D', 'O', 'N', 'E']

/-- Classification of a server acknowledgment by `accept_status`. -/
inductive AckClass
  | accepted
  | connectionClosed
  | malformedStart
  | malformedEnd
  | malformedOther
deriving DecidableEq

/-- Embeds `accept_status` as a classifier: the source checks the branches in
this order (sentinel equality, emptiness raising `InterruptedError`,
missing `MSG-` start, missing `-DONE` finish, otherwise problematic). -/
def accept_status (status : List Char) : AckClass :=
  if status = msgOkDone then .accepted
  else if status = [] then .connectionClosed
  else if ¬ (msgStartTok.isPrefixOf status) then .malformedStart
  else if ¬ (msgEndTok.isSuffixOf status) then .malformedEnd
  else .malformedOther

/-! ## Session driver

The `main` loop of `scraping/main.py`, embedded as a pure function.  A
collector is modelled by the outcome of its `request()` call and of
`json.dumps(client.results())`; the server is a script assigning to each
send attempt the bytes available for the acknowledgment's 32-byte length
header and for its body.  The trace records every `sendall` and every
diagnostic print; a fatal outcome models an exception escaping `main`.
-/

/-- Python exception classes relevant to the driver. -/
inductive PyExc
  | typeError
  | valueError
  | jsonDecodeError
  | nameError
deriving DecidableEq

/-- Outcome of `json.dumps(client.results())`: either the serialized
payload bytes, or a raised exception.  (CPython: `json.dumps` raises
`TypeError` on an unserializable object and `ValueError` on a circular
reference; it never raises `json.JSONDecodeError`, which is a decoding
error.) -/
inductive SerOutcome
  | ok (payload : List Char)
  | raises (e : PyExc)
deriving DecidableEq

/-- One registered collector, by the observable behaviour the driver
consumes: its `name`, the integer returned by `request()`, and the
outcome of serializing `results()`. -/
structure Collector where
  name : String
  status : Nat
  ser : SerOutcome
deriving DecidableEq

/-- The server-side script for one send attempt: the bytes `recv(32)`
returns for the ack's length header, and the bytes available to the
`recv(status_length)` that reads the ack body. -/
structure Ack where
  header : List Char
  body : List Char

/-- Observable events of a run: framed payload sends, raw control-token
sends, and diagnostic prints. -/
inductive Event
  | frameSent (bytes : List Char)
  | rawSent (bytes : List Char)
  | logResults (name : String)
  | logBadJson (name : String) (prevData : List Char)
  | logAck (c : AckClass)
  | logFailed (data : List Char)
deriving DecidableEq

/-- A fatal end of the run: the `InterruptedError` raised on an empty
ack, or any other exception escaping `main` uncaught. -/
inductive Fatal
  | interrupted
  | uncaught (e : PyExc)
deriving DecidableEq

/-- The `while max_attempts > 0` retry loop for one serialized payload
`sd`.  Arguments: remaining attempts, global attempt counter into the
ack script.  Returns the events of the loop, the new attempt counter,
and either a fatal outcome or the value of `max_attempts` on exit
(positive exactly when the loop exited via `break` on an accepted
status). -/
def retryLoop (acks : Nat → Ack) (sd : List Char) :
    Nat → Nat → List Event × Nat × Except Fatal Nat
  | 0, k => ([], k, .ok 0)
  | ma + 1, k =>
    let a := acks k
    match consume_length_header (a.header.take 32) with
    | none => ([.frameSent (add_length_header sd)], k + 1, .error (.uncaught .valueError))
    | some len =>
      if len < 0 then
        ([.frameSent (add_length_header sd)], k + 1, .error (.uncaught .valueError))
      else
        match accept_status (a.body.take len.toNat) with
        | .accepted => ([.frameSent (add_length_header sd)], k + 1, .ok (ma + 1))
        | .connectionClosed => ([.frameSent (add_length_header sd)], k + 1, .error .interrupted)
        | cls =>
          let r := retryLoop acks sd ma (k + 1)
          (.frameSent (add_length_header sd) :: .logAck cls :: r.1, r.2.1, r.2.2)

/-- The body of the `for` loop for collector `c` at index `i` of `n`
registered collectors.  `psd` is the value of the `send_data` variable
left by earlier iterations (`none` while still unbound); the `except
json.JSONDecodeError` handler prints it, so hitting that handler with
`send_data` unbound raises `NameError`.  Returns the events, the new
attempt counter, the new `send_data`, and an optional fatal outcome. -/
def runClient (acks : Nat → Ack) (n i : Nat) (c : Collector) (k : Nat)
    (psd : Option (List Char)) :
    List Event × Nat × Option (List Char) × Option Fatal :=
  if 200 ≤ c.status ∧ c.status < 300 then
    match c.ser with
    | .raises e =>
      if e = .jsonDecodeError then
        match psd with
        | none => ([.logResults c.name], k, psd, some (.uncaught .nameError))
        | some pd => ([.logResults c.name, .logBadJson c.name pd], k, psd, none)
      else ([.logResults c.name], k, psd, some (.uncaught e))
    | .ok sd =>
      let r := retryLoop acks sd 3 k
      match r.2.2 with
      | .error f => (.logResults c.name :: r.1, r.2.1, some sd, some f)
      | .ok ma =>
        let evs := if ma = 0 then r.1 ++ [.logFailed sd] else r.1
        let evs := if i < n - 1 then evs ++ [.rawSent nextTok] else evs
        (.logResults c.name :: evs, r.2.1, some sd, none)
  else ([], k, psd, none)

/-- The `for i, client in enumerate(...)` loop followed by
`sock.sendall(b'DONE')`.  Stops at the first fatal outcome; otherwise
sends `DONE` after the last collector. -/
def mainLoop (acks : Nat → Ack) (n : Nat) :
    List Collector → Nat → Nat → Option (List Char) → List Event × Option Fatal
  | [], _, _, _ => ([.rawSent doneTok], none)
  | c :: rest, i, k, psd =>
    match runClient acks n i c k psd with
    | (evs, k', psd', none) =>
      let r := mainLoop acks n rest (i + 1) k' psd'
      (evs ++ r.1, r.2)
    | (evs, _, _, some f) => (evs, some f)

/-- A whole run of `main()` over the registered collectors and a server
script: the trace of events and an optional fatal outcome. -/
def mainRun (clients : List Collector) (acks : Nat → Ack) :
    List Event × Option Fatal :=
  mainLoop acks clients.length clients 0 0 none

/-- A scripted acknowledgment whose header decodes to a non-negative
count and whose status classifies as one of the retryable malformed
classes (never accepted, never connection-closed). -/
def retryableAck (a : Ack) : Bool :=
  match consume_length_header (a.header.take 32) with
  | none => false
  | some len =>
    if len < 0 then false
    else
      match accept_status (a.body.take len.toNat) with
      | .malformedStart => true
      | .malformedEnd => true
      | .malformedOther => true
      | _ => false

/-- A collector for which the driver reaches the send loop: `request()`
returned 2xx and serialization succeeded. -/
def sentOk (c : Collector) : Bool :=
  if 200 ≤ c.status ∧ c.status < 300 then
    match c.ser with
    | .ok _ => true
    | .raises _ => false
  else false

/-- Recognizes the `NEXT` control-token send. -/
def isNextEv : Event → Bool
  | .rawSent b => b = nextTok
  | _ => false

/-- Recognizes a framed payload send. -/
def isFrameEv : Event → Bool
  | .frameSent _ => true
  | _ => false

/-- Follows the spec's words (§4.1), for comparison with the source's
`add_length_header`: "if N's decimal representation plus delimiters
exceeds 32 bytes the encode fails with a FramingError (size-overflow)";
`none` is the failure. -/
def add_length_header_spec (data : List Char) : Option (List Char) :=
  if 32 < (headerText data.length).length then none
  else some (add_length_header data)

/-- A framed `MSG-OK-DONE` acknowledgment, as the server would send it. -/
def okAck : Ack := ⟨(add_length_header msgOkDone).take 32, msgOkDone⟩

/-- A framed acknowledgment that classifies as `malformedStart`. -/
def badAck : Ack := ⟨(add_length_header ['B', 'A', 'D']).take 32, ['B', 'A', 'D']⟩

/-- A framed empty acknowledgment: the peer closed the stream. -/
def emptyAck : Ack := ⟨(add_length_header []).take 32, []⟩

/-- A collector that succeeds with payload `['x']`. -/
def cOk : Collector := ⟨"ok", 200, .ok ['x']⟩

/-- A collector whose `request()` returns 404. -/
def cSkip : Collector := ⟨"skip", 404, .ok ['y']⟩

-- sanity checks on small concrete inputs
example : add_length_header ['a', 'b'] =
    ['<', 'l', 'e', 'n', 'g', 't', 'h', ' ', '2', '>'] ++
    List.replicate 22 ' ' ++ ['a', 'b'] := by decide
example : consume_length_header ((add_length_header ['a', 'b']).take 32) = some 2 := by
  decide
example : pyInt ['-', '5'] = some (-5) := by decide
example : pyInt ['1', '_', '2'] = some 12 := by decide
example : pyInt ['1', '_', '_', '2'] = none := by decide
example : pyInt [' ', '+', '7', ' '] = some 7 := by decide
example : pyInt ['+', ' ', '7'] = none := by decide
example : accept_status msgOkDone = .accepted := by decide
example : accept_status [] = .connectionClosed := by decide
example : accept_status ['X'] = .malformedStart := by decide
example : accept_status ['M', 'S', 'G', '-', 'x'] = .malformedEnd := by decide
example : accept_status ['M', 'S', 'G', '-', '-', 'D', 'O', 'N', 'E'] = .malformedOther := by
  decide


example :
    mainRun [cOk] (fun _ => okAck) =
      ([.logResults "ok", .frameSent (add_length_header ['x']), .rawSent doneTok], none) := by
  decide

example :
    mainRun [cOk, cOk] (fun _ => okAck) =
      ([.logResults "ok", .frameSent (add_length_header ['x']), .rawSent nextTok,
        .logResults "ok", .frameSent (add_length_header ['x']), .rawSent doneTok], none) := by
  decide

example :
    mainRun [cOk] (fun _ => badAck) =
      ([.logResults "ok",
        .frameSent (add_length_header ['x']), .logAck .malformedStart,
        .frameSent (add_length_header ['x']), .logAck .malformedStart,
        .frameSent (add_length_header ['x']), .logAck .malformedStart,
        .logFailed ['x'], .rawSent doneTok], none) := by
  decide

example :
    mainRun [cSkip, cOk] (fun _ => okAck) =
      ([.logResults "ok", .frameSent (add_length_header ['x']), .rawSent doneTok], none) := by
  decide

example :
    mainRun [cOk, ⟨"empty", 204, .ok ['z']⟩, cOk]
      (fun k => if k = 0 then okAck else ⟨(add_length_header []).take 32, []⟩) =
      ([.logResults "ok", .frameSent (add_length_header ['x']), .rawSent nextTok,
        .logResults "empty", .frameSent (add_length_header ['z'])],
       some .interrupted) := by
  decide

/-! ## Decimal representation: `Nat.repr` produces the digit string of its
argument.  Core and Mathlib only provide length bounds for
`Nat.toDigitsCore`, so value correctness is proved here. -/

theorem digitChar_toNat : ∀ d < 10, (Nat.digitChar d).toNat = 48 + d := by decide

theorem digitChar_isDigit : ∀ d < 10, (Nat.digitChar d).isDigit = true := by decide

theorem toDigitsCore_acc (fuel : Nat) : ∀ (n : Nat) (ds : List Char),
    Nat.toDigitsCore 10 fuel n ds = Nat.toDigitsCore 10 fuel n [] ++ ds := by
  induction fuel with
  | zero => intro n ds; simp [Nat.toDigitsCore]
  | succ f ih =>
    intro n ds
    simp only [Nat.toDigitsCore]
    by_cases h : n / 10 = 0
    · simp [h]
    · simp only [if_neg h]
      rw [ih (n / 10) (Nat.digitChar (n % 10) :: ds),
        ih (n / 10) [Nat.digitChar (n % 10)]]
      simp

theorem digitsToNat_append_single (s : List Char) (c : Char) :
    digitsToNat (s ++ [c]) = digitsToNat s * 10 + (c.toNat - 48) := by
  simp [digitsToNat, List.foldl_append]

theorem toDigitsCore_val : ∀ fuel n, n < fuel →
    digitsToNat (Nat.toDigitsCore 10 fuel n []) = n := by
  intro fuel
  induction fuel with
  | zero => intro n h; omega
  | succ f ih =>
    intro n h
    simp only [Nat.toDigitsCore]
    by_cases h0 : n / 10 = 0
    · have hn : n < 10 := by omega
      simp only [if_pos h0]
      have hc : (Nat.digitChar (n % 10)).toNat = 48 + n % 10 :=
        digitChar_toNat (n % 10) (Nat.mod_lt n (by omega))
      show digitsToNat [Nat.digitChar (n % 10)] = n
      simp only [digitsToNat, List.foldl]
      rw [hc]
      omega
    · have hpos : 0 < n := by
        rcases Nat.eq_zero_or_pos n with h | h
        · subst h; simp at h0
        · exact h
      have hlt : n / 10 < f := by
        have := Nat.div_lt_self hpos (by omega : 1 < 10)
        omega
      simp only [if_neg h0]
      rw [toDigitsCore_acc, digitsToNat_append_single, ih (n / 10) hlt,
        digitChar_toNat (n % 10) (Nat.mod_lt n (by omega))]
      omega

theorem toDigitsCore_digits : ∀ fuel n ds, (∀ c ∈ ds, c.isDigit = true) →
    ∀ c ∈ Nat.toDigitsCore 10 fuel n ds, c.isDigit = true := by
  intro fuel
  induction fuel with
  | zero => intro n ds hds; simpa [Nat.toDigitsCore] using hds
  | succ f ih =>
    intro n ds hds
    have hd : (Nat.digitChar (n % 10)).isDigit = true :=
      digitChar_isDigit (n % 10) (Nat.mod_lt _ (by omega))
    have hcons : ∀ c ∈ Nat.digitChar (n % 10) :: ds, c.isDigit = true := by
      intro c hc
      rcases List.mem_cons.mp hc with h | h
      · subst h; exact hd
      · exact hds c h
    simp only [Nat.toDigitsCore]
    by_cases h0 : n / 10 = 0
    · simpa [h0] using hcons
    · simpa [h0] using ih (n / 10) _ hcons

theorem repr_toList (n : Nat) : (Nat.repr n).toList = Nat.toDigits 10 n := rfl

theorem repr_val (n : Nat) : digitsToNat ((Nat.repr n).toList) = n := by
  rw [repr_toList]
  exact toDigitsCore_val (n + 1) n (Nat.lt_succ_self n)

theorem repr_digits (n : Nat) : ∀ c ∈ (Nat.repr n).toList, c.isDigit = true := by
  rw [repr_toList]
  exact toDigitsCore_digits (n + 1) n [] (by simp)

theorem repr_toList_ne_nil (n : Nat) : (Nat.repr n).toList ≠ [] := by
  rw [repr_toList]
  unfold Nat.toDigits
  simp only [Nat.toDigitsCore]
  by_cases h0 : n / 10 = 0
  · simp [h0]
  · rw [if_neg h0, toDigitsCore_acc]
    simp

/-! ## Trimming and `int()` parsing of digit strings -/

theorem not_inStrip_of_isDigit {c : Char} (h : c.isDigit = true) : inStrip c = false := by
  by_contra hc
  rw [Bool.not_eq_false] at hc
  have : c = '<' ∨ c = 'l' ∨ c = 'e' ∨ c = 'n' ∨ c = 'g' ∨ c = 't' ∨ c = 'h' ∨
      c = '>' ∨ c = ' ' := by
    simpa [inStrip, or_assoc] using hc
  rcases this with rfl | rfl | rfl | rfl | rfl | rfl | rfl | rfl | rfl <;> simp at h

theorem not_isWs_of_isDigit {c : Char} (h : c.isDigit = true) : isWs c = false := by
  by_contra hc
  rw [Bool.not_eq_false] at hc
  have : c = ' ' ∨ c = '\t' ∨ c = '\n' ∨ c = '\r' ∨ c = Char.ofNat 11 ∨
      c = Char.ofNat 12 := by
    simpa [isWs, or_assoc] using hc
  rcases this with rfl | rfl | rfl | rfl | rfl | rfl <;> simp at h

theorem dropWhile_eq_self_of_digits (p : Char → Bool)
    (hp : ∀ c, c.isDigit = true → p c = false) (m : List Char) (hm : m ≠ [])
    (hd : ∀ c ∈ m, c.isDigit = true) : List.dropWhile p m = m := by
  cases m with
  | nil => exact absurd rfl hm
  | cons c rest => simp [List.dropWhile, hp c (hd c (by simp))]

theorem trimBoth_eq_self_of_digits (p : Char → Bool)
    (hp : ∀ c, c.isDigit = true → p c = false) (m : List Char) (hm : m ≠ [])
    (hd : ∀ c ∈ m, c.isDigit = true) : trimBoth p m = m := by
  unfold trimBoth
  rw [dropWhile_eq_self_of_digits p hp m hm hd,
    dropWhile_eq_self_of_digits p hp m.reverse (by simpa using hm)
      (fun c hc => hd c (List.mem_reverse.mp hc)),
    List.reverse_reverse]

theorem dropWhile_replicate_append (p : Char → Bool) (a : Char) (h : p a = true)
    (l : List Char) : ∀ j, List.dropWhile p (List.replicate j a ++ l) = List.dropWhile p l := by
  intro j
  induction j with
  | zero => simp
  | succ n ih => simp [List.replicate_succ, List.dropWhile_cons, h, ih]

theorem dropWhile_cons_pos (p : Char → Bool) (a : Char) (l : List Char)
    (h : p a = true) : List.dropWhile p (a :: l) = List.dropWhile p l := by
  simp [List.dropWhile_cons, h]

theorem dropWhile_cons_neg (p : Char → Bool) (a : Char) (l : List Char)
    (h : p a = false) : List.dropWhile p (a :: l) = a :: l := by
  simp [List.dropWhile_cons, h]

theorem dropWhile_eq_self_of_false (p : Char → Bool) (m : List Char) (hm : m ≠ [])
    (hall : ∀ c ∈ m, p c = false) : List.dropWhile p m = m := by
  cases m with
  | nil => exact absurd rfl hm
  | cons c rest => exact dropWhile_cons_neg p c rest (hall c (by simp))

theorem dropWhile_append_of_forall (p : Char → Bool) (pre l : List Char)
    (hpre : ∀ c ∈ pre, p c = true) :
    List.dropWhile p (pre ++ l) = List.dropWhile p l := by
  induction pre with
  | nil => simp
  | cons a t ih =>
    rw [List.cons_append, dropWhile_cons_pos p a _ (hpre a (by simp))]
    exact ih (fun c hc => hpre c (by simp [hc]))

/-- Trimming characters satisfying `p` from both ends of `pre ++ m ++ post`
leaves exactly `m` when `pre` and `post` consist of such characters and `m`
is a nonempty string free of them. -/
theorem trimBoth_sandwich (p : Char → Bool) (pre m post : List Char)
    (hpre : ∀ c ∈ pre, p c = true) (hpost : ∀ c ∈ post, p c = true)
    (hm : m ≠ []) (hall : ∀ c ∈ m, p c = false) :
    trimBoth p (pre ++ (m ++ post)) = m := by
  obtain ⟨c, rest, rfl⟩ : ∃ c rest, m = c :: rest := by
    cases m with
    | nil => exact absurd rfl hm
    | cons c rest => exact ⟨c, rest, rfl⟩
  unfold trimBoth
  rw [dropWhile_append_of_forall p pre _ hpre, List.cons_append,
    dropWhile_cons_neg p c _ (hall c (by simp))]
  rw [show (c :: (rest ++ post)).reverse = post.reverse ++ (rest.reverse ++ [c]) by simp]
  rw [dropWhile_append_of_forall p post.reverse _
    (fun x hx => hpost x (List.mem_reverse.mp hx))]
  rw [dropWhile_eq_self_of_false p (rest.reverse ++ [c]) (by simp)]
  · simp
  · intro x hx
    rcases List.mem_append.mp hx with h | h
    · exact hall x (by simp [List.mem_reverse.mp h])
    · simp at h; subst h; exact hall x (by simp)

/-- Stripping the header character set from a well-formed padded header
leaves exactly the digit string. -/
theorem trimBoth_header (m : List Char) (j : Nat) (hm : m ≠ [])
    (hd : ∀ c ∈ m, c.isDigit = true) :
    trimBoth inStrip (lengthOpen ++ (m ++ '>' :: List.replicate j ' ')) = m := by
  apply trimBoth_sandwich
  · intro c hc
    fin_cases hc <;> rfl
  · intro c hc
    rcases List.mem_cons.mp hc with h | h
    · subst h; rfl
    · rw [(List.eq_of_mem_replicate h : c = ' ')]; rfl
  · exact hm
  · exact fun c hc => not_inStrip_of_isDigit (hd c hc)

theorem usAfterDigit_of_digits :
    ∀ m : List Char, (∀ c ∈ m, c.isDigit = true) → usAfterDigit m = true
  | [], _ => rfl
  | [c], hd => by simp [usAfterDigit, hd c (by simp)]
  | c :: c2 :: rest, hd => by
    have hc : c.isDigit = true := hd c (by simp)
    have hne : ¬(c = '_') := by rintro rfl; simp at hc
    have ih := usAfterDigit_of_digits (c2 :: rest)
      (fun x hx => hd x (List.mem_cons_of_mem c hx))
    simp [usAfterDigit, if_neg hne, hc, ih]

theorem parseUnsigned_digits (m : List Char) (hm : m ≠ [])
    (hd : ∀ c ∈ m, c.isDigit = true) : parseUnsigned m = some (digitsToNat m) := by
  obtain ⟨c, rest, rfl⟩ : ∃ c rest, m = c :: rest := by
    cases m with
    | nil => exact absurd rfl hm
    | cons c rest => exact ⟨c, rest, rfl⟩
  have hfilter : (c :: rest).filter (fun x => x ≠ '_') = c :: rest := by
    rw [List.filter_eq_self]
    intro a ha
    have hdig : a.isDigit = true := hd a ha
    simp only [ne_eq, decide_eq_true_eq]
    rintro rfl
    simp at hdig
  have hAfter : usAfterDigit rest = true :=
    usAfterDigit_of_digits rest (fun x hx => hd x (by simp [hx]))
  have hfilter' : List.filter (fun x => !decide (x = '_')) (c :: rest) = c :: rest := by
    rw [List.filter_eq_self]
    intro a ha
    have hdig : a.isDigit = true := hd a ha
    simp only [Bool.not_eq_true', decide_eq_false_iff_not]
    rintro rfl
    simp at hdig
  simp [parseUnsigned, hd c (by simp), hAfter, hfilter, hfilter']

theorem pyInt_digits (m : List Char) (hm : m ≠ [])
    (hd : ∀ c ∈ m, c.isDigit = true) : pyInt m = some (digitsToNat m : Int) := by
  have htrim : trimBoth isWs m = m :=
    trimBoth_eq_self_of_digits isWs (fun c h => not_isWs_of_isDigit h) m hm hd
  obtain ⟨c, rest, rfl⟩ : ∃ c rest, m = c :: rest := by
    cases m with
    | nil => exact absurd rfl hm
    | cons c rest => exact ⟨c, rest, rfl⟩
  have hc : c.isDigit = true := hd c (by simp)
  have h1 : ¬(c = '+') := by rintro rfl; simp at hc
  have h2 : ¬(c = '-') := by rintro rfl; simp at hc
  unfold pyInt
  rw [htrim]
  simp only [if_neg h1, if_neg h2]
  rw [parseUnsigned_digits (c :: rest) (by simp) hd]
  rfl

/-- A well-formed frame's first 32 bytes are exactly its padded header. -/
theorem take_32_add_length_header (data : List Char)
    (h : (headerText data.length).length ≤ 32) :
    (add_length_header data).take 32 = pyLjust (headerText data.length) 32 := by
  have hlen : (pyLjust (headerText data.length) 32).length = 32 := by
    simp only [pyLjust, List.length_append, List.length_replicate]
    omega
  unfold add_length_header
  exact List.take_left' hlen

/-- C3: for every payload whose length `N` has a decimal representation
fitting, together with the delimiters `<length ` and `>`, in the 32-byte
header field, decoding the first 32 bytes of `add_length_header payload`
recovers exactly `N = payload.length`. -/
theorem header_roundtrip (data : List Char)
    (h : (headerText data.length).length ≤ 32) :
    consume_length_header ((add_length_header data).take 32) =
      some (data.length : Int) := by
  rw [take_32_add_length_header data h]
  have hshape : pyLjust (headerText data.length) 32 =
      lengthOpen ++ ((Nat.repr data.length).toList ++
        '>' :: List.replicate (32 - (headerText data.length).length) ' ') := by
    simp [pyLjust, headerText, List.append_assoc]
  rw [hshape]
  unfold consume_length_header
  rw [trimBoth_header _ _ (repr_toList_ne_nil data.length) (repr_digits data.length),
    pyInt_digits _ (repr_toList_ne_nil data.length) (repr_digits data.length),
    repr_val data.length]

/-- Witness for C3 at the payload `['a', 'b', 'c']`. -/
theorem header_roundtrip_witness :
    consume_length_header ((add_length_header ['a', 'b', 'c']).take 32) = some 3 :=
  header_roundtrip ['a', 'b', 'c'] (by decide)

/-- C6: the status classifier is exhaustive and ordered: every non-empty
byte string classifies to one of the four non-fatal classes (never
`connectionClosed`), `accepted` holds exactly for the literal sentinel
`MSG-OK-DONE`, and the empty byte string classifies to
`connectionClosed`. -/
theorem accept_status_classification (s : List Char) :
    (s ≠ [] → accept_status s ≠ AckClass.connectionClosed) ∧
    (accept_status s = AckClass.accepted ↔ s = msgOkDone) ∧
    (s = [] → accept_status s = AckClass.connectionClosed) := by
  refine ⟨?_, ⟨?_, ?_⟩, ?_⟩
  · intro hne h
    unfold accept_status at h
    split_ifs at h with h1 h2 h3 h4 <;> simp_all
  · intro h
    unfold accept_status at h
    split_ifs at h with h1 h2 h3 h4 <;> simp_all
  · rintro rfl
    decide
  · rintro rfl
    decide

/-- Witness for C6 at the non-empty input `['M']`. -/
theorem accept_status_classification_witness :
    accept_status ['M'] ≠ AckClass.connectionClosed :=
  (accept_status_classification ['M']).1 (by decide)

/-- C10: header decoding is permissive rather than shape-checked: any
32-byte input made of a digit string surrounded, in any arrangement, by
characters from the trimmed set `{<, l, e, n, g, t, h, >, space}` decodes
successfully to the value of the digit string, whether or not it has the
form `<length N>` padded with spaces. -/
theorem permissive_header_decode (pre ds post : List Char)
    (hpre : ∀ c ∈ pre, inStrip c = true) (hpost : ∀ c ∈ post, inStrip c = true)
    (hds : ds ≠ []) (hdig : ∀ c ∈ ds, c.isDigit = true)
    (hlen : (pre ++ (ds ++ post)).length = 32) :
    consume_length_header (pre ++ (ds ++ post)) = some (digitsToNat ds : Int) := by
  unfold consume_length_header
  rw [trimBoth_sandwich inStrip pre ds post hpre hpost hds
    (fun c hc => not_inStrip_of_isDigit (hdig c hc)),
    pyInt_digits ds hds hdig]

/-- Witness for C10: the 32-byte input `><h 12` padded with spaces is not
of the form `<length N>` yet decodes to 12. -/
theorem permissive_header_decode_witness :
    consume_length_header (['>', '<', 'h', ' '] ++ (['1', '2'] ++ List.replicate 26 ' ')) =
      some 12 :=
  permissive_header_decode ['>', '<', 'h', ' '] ['1', '2'] (List.replicate 26 ' ')
    (by decide) (by decide) (by decide) (by decide) (by decide)

/-! ## Retry loop behaviour -/

theorem retryLoop_step_none (acks : Nat → Ack) (sd : List Char) (ma k : Nat)
    (hc : consume_length_header ((acks k).header.take 32) = none) :
    retryLoop acks sd (ma + 1) k =
      ([.frameSent (add_length_header sd)], k + 1,
        .error (.uncaught .valueError)) := by
  simp only [retryLoop, hc]

theorem retryLoop_step_neg (acks : Nat → Ack) (sd : List Char) (ma k : Nat) (len : Int)
    (hc : consume_length_header ((acks k).header.take 32) = some len)
    (hneg : len < 0) :
    retryLoop acks sd (ma + 1) k =
      ([.frameSent (add_length_header sd)], k + 1,
        .error (.uncaught .valueError)) := by
  simp only [retryLoop, hc, if_pos hneg]

theorem retryLoop_step_accepted (acks : Nat → Ack) (sd : List Char) (ma k : Nat) (len : Int)
    (hc : consume_length_header ((acks k).header.take 32) = some len)
    (hneg : ¬ len < 0)
    (hst : accept_status ((acks k).body.take len.toNat) = .accepted) :
    retryLoop acks sd (ma + 1) k =
      ([.frameSent (add_length_header sd)], k + 1, .ok (ma + 1)) := by
  simp only [retryLoop, hc, hst, if_neg hneg]

theorem retryLoop_step_closed (acks : Nat → Ack) (sd : List Char) (ma k : Nat) (len : Int)
    (hc : consume_length_header ((acks k).header.take 32) = some len)
    (hneg : ¬ len < 0)
    (hst : accept_status ((acks k).body.take len.toNat) = .connectionClosed) :
    retryLoop acks sd (ma + 1) k =
      ([.frameSent (add_length_header sd)], k + 1, .error .interrupted) := by
  simp only [retryLoop, hc, hst, if_neg hneg]

theorem retryLoop_step_retryable (acks : Nat → Ack) (sd : List Char) (ma k : Nat)
    (len : Int) (cls : AckClass)
    (hc : consume_length_header ((acks k).header.take 32) = some len)
    (hneg : ¬ len < 0)
    (hst : accept_status ((acks k).body.take len.toNat) = cls)
    (hcls : cls = .malformedStart ∨ cls = .malformedEnd ∨ cls = .malformedOther) :
    retryLoop acks sd (ma + 1) k =
      (.frameSent (add_length_header sd) :: .logAck cls ::
        (retryLoop acks sd ma (k + 1)).1,
       (retryLoop acks sd ma (k + 1)).2.1, (retryLoop acks sd ma (k + 1)).2.2) := by
  rcases hcls with rfl | rfl | rfl <;> simp only [retryLoop, hc, hst, if_neg hneg]

/-- Unpacking a `retryableAck` hypothesis into its components. -/
theorem retryableAck_elim (a : Ack) (h : retryableAck a = true) :
    ∃ len : Int, consume_length_header (a.header.take 32) = some len ∧
      ¬ len < 0 ∧
      (accept_status (a.body.take len.toNat) = .malformedStart ∨
       accept_status (a.body.take len.toNat) = .malformedEnd ∨
       accept_status (a.body.take len.toNat) = .malformedOther) := by
  rcases hc : consume_length_header (a.header.take 32) with _ | len
  · simp only [retryableAck, hc] at h
    exact absurd h (by simp)
  · simp only [retryableAck, hc] at h
    by_cases hneg : len < 0
    · rw [if_pos hneg] at h; simp at h
    · rw [if_neg hneg] at h
      refine ⟨len, rfl, hneg, ?_⟩
      rcases hst : accept_status (a.body.take len.toNat) with _ | _ | _ | _ | _ <;>
        simp only [hst] at h
      · exact absurd h (by simp)
      · exact absurd h (by simp)
      · exact Or.inl rfl
      · exact Or.inr (Or.inl rfl)
      · exact Or.inr (Or.inr rfl)

theorem retryLoop_all_retryable (acks : Nat → Ack) (sd : List Char) :
    ∀ ma k, (∀ j < ma, retryableAck (acks (k + j)) = true) →
      (retryLoop acks sd ma k).1.filter isFrameEv =
          List.replicate ma (Event.frameSent (add_length_header sd)) ∧
        (retryLoop acks sd ma k).2.1 = k + ma ∧
        (retryLoop acks sd ma k).2.2 = Except.ok 0 := by
  intro ma
  induction ma with
  | zero => intro k _; exact ⟨rfl, rfl, rfl⟩
  | succ m ih =>
    intro k hall
    have h0 : retryableAck (acks (k + 0)) = true := hall 0 (by omega)
    rw [Nat.add_zero] at h0
    obtain ⟨len, hc, hneg, hcls⟩ := retryableAck_elim (acks k) h0
    obtain ⟨cls, hst, hcls'⟩ : ∃ cls, accept_status ((acks k).body.take len.toNat) = cls ∧
        (cls = AckClass.malformedStart ∨ cls = AckClass.malformedEnd ∨
          cls = AckClass.malformedOther) := by
      rcases hcls with h | h | h
      · exact ⟨_, h, Or.inl rfl⟩
      · exact ⟨_, h, Or.inr (Or.inl rfl)⟩
      · exact ⟨_, h, Or.inr (Or.inr rfl)⟩
    obtain ⟨ihf, ihk, ihr⟩ := ih (k + 1) (fun j hj => by
      have := hall (j + 1) (by omega)
      rwa [show k + (j + 1) = k + 1 + j by omega] at this)
    rw [retryLoop_step_retryable acks sd m k len cls hc hneg hst hcls']
    refine ⟨?_, ?_, ?_⟩
    · show (Event.frameSent (add_length_header sd) :: Event.logAck cls ::
        (retryLoop acks sd m (k + 1)).1).filter isFrameEv = _
      rw [List.filter_cons_of_pos rfl, List.filter_cons_of_neg (by simp [isFrameEv]),
        ihf, List.replicate_succ]
    · show (retryLoop acks sd m (k + 1)).2.1 = k + (m + 1)
      rw [ihk]; omega
    · exact ihr

/-- C2: against a server whose acknowledgment is always classified as
retryable-malformed (never accepted, never connection-closed), the driver
sends the framed payload exactly 3 times, logs the payload as failed, and
finishes the collector without a fatal outcome (so the run advances to
the next collector). -/
theorem retry_bound (acks : Nat → Ack) (c : Collector) (sd : List Char)
    (n i k : Nat) (psd : Option (List Char))
    (h2xx : 200 ≤ c.status ∧ c.status < 300) (hser : c.ser = .ok sd)
    (hbad : ∀ j < 3, retryableAck (acks (k + j)) = true) :
    (runClient acks n i c k psd).2.2.2 = none ∧
      (runClient acks n i c k psd).1.filter isFrameEv =
        List.replicate 3 (Event.frameSent (add_length_header sd)) ∧
      Event.logFailed sd ∈ (runClient acks n i c k psd).1 := by
  obtain ⟨hf, hk, hr⟩ := retryLoop_all_retryable acks sd 3 k hbad
  have hrc : runClient acks n i c k psd =
      (.logResults c.name ::
        (if i < n - 1
          then ((retryLoop acks sd 3 k).1 ++ [.logFailed sd]) ++ [.rawSent nextTok]
          else (retryLoop acks sd 3 k).1 ++ [.logFailed sd]),
       (retryLoop acks sd 3 k).2.1, some sd, none) := by
    simp [runClient, if_pos h2xx, hser, hr]
  rw [hrc]
  refine ⟨rfl, ?_, ?_⟩
  · by_cases hi : i < n - 1 <;>
      simp [hi, List.filter_append, List.filter_cons, isFrameEv, hf]
  · by_cases hi : i < n - 1 <;> simp [hi]

/-- Every event the retry loop emits is a frame send or an ack log. -/
theorem retryLoop_events (acks : Nat → Ack) (sd : List Char) :
    ∀ ma k, ∀ e ∈ (retryLoop acks sd ma k).1,
      e = Event.frameSent (add_length_header sd) ∨ ∃ cls, e = Event.logAck cls := by
  intro ma
  induction ma with
  | zero => intro k e he; simp [retryLoop] at he
  | succ m ih =>
    intro k e he
    rcases hc : consume_length_header ((acks k).header.take 32) with _ | len
    · rw [retryLoop_step_none acks sd m k hc] at he
      simp at he; exact Or.inl he
    · by_cases hneg : len < 0
      · rw [retryLoop_step_neg acks sd m k len hc hneg] at he
        simp at he; exact Or.inl he
      · rcases hst : accept_status ((acks k).body.take len.toNat) with _ | _ | _ | _ | _
        · rw [retryLoop_step_accepted acks sd m k len hc hneg hst] at he
          simp at he; exact Or.inl he
        · rw [retryLoop_step_closed acks sd m k len hc hneg hst] at he
          simp at he; exact Or.inl he
        all_goals
          rw [retryLoop_step_retryable acks sd m k len _ hc hneg hst
            (by first
              | exact Or.inl rfl
              | exact Or.inr (Or.inl rfl)
              | exact Or.inr (Or.inr rfl))] at he
          rcases List.mem_cons.mp he with rfl | he1
          · exact Or.inl rfl
          · rcases List.mem_cons.mp he1 with rfl | he2
            · exact Or.inr ⟨_, rfl⟩
            · exact ih (k + 1) e he2

theorem retryLoop_no_rawSent (acks : Nat → Ack) (sd : List Char) (ma k : Nat)
    (b : List Char) : Event.rawSent b ∉ (retryLoop acks sd ma k).1 := by
  intro h
  rcases retryLoop_events acks sd ma k _ h with h1 | ⟨cls, h1⟩ <;> simp at h1

/-- A `rawSent` event inside one collector's processing can only be the
`NEXT` token (`DONE` is sent only after the loop over all collectors). -/
theorem runClient_rawSent (acks : Nat → Ack) (n i : Nat) (c : Collector) (k : Nat)
    (psd : Option (List Char)) (b : List Char)
    (h : Event.rawSent b ∈ (runClient acks n i c k psd).1) : b = nextTok := by
  by_cases h2 : 200 ≤ c.status ∧ c.status < 300
  · rcases hser : c.ser with sd | e
    · rcases hr : (retryLoop acks sd 3 k).2.2 with f | ma
      · have heq : runClient acks n i c k psd =
            (.logResults c.name :: (retryLoop acks sd 3 k).1,
              (retryLoop acks sd 3 k).2.1, some sd, some f) := by
          simp [runClient, if_pos h2, hser, hr]
        rw [heq] at h
        rcases List.mem_cons.mp h with h1 | h1
        · simp at h1
        · exact absurd h1 (retryLoop_no_rawSent _ _ _ _ _)
      · have heq : runClient acks n i c k psd =
            (.logResults c.name ::
              (if i < n - 1
                then (if ma = 0 then (retryLoop acks sd 3 k).1 ++ [.logFailed sd]
                      else (retryLoop acks sd 3 k).1) ++ [.rawSent nextTok]
                else (if ma = 0 then (retryLoop acks sd 3 k).1 ++ [.logFailed sd]
                      else (retryLoop acks sd 3 k).1)),
              (retryLoop acks sd 3 k).2.1, some sd, none) := by
          simp [runClient, if_pos h2, hser, hr]
        rw [heq] at h
        rcases List.mem_cons.mp h with h1 | h1
        · simp at h1
        · by_cases hi : i < n - 1
          · rw [if_pos hi] at h1
            rcases List.mem_append.mp h1 with h2 | h2
            · by_cases hm : ma = 0
              · rw [if_pos hm] at h2
                rcases List.mem_append.mp h2 with h3 | h3
                · exact absurd h3 (retryLoop_no_rawSent _ _ _ _ _)
                · simp at h3
              · rw [if_neg hm] at h2
                exact absurd h2 (retryLoop_no_rawSent _ _ _ _ _)
            · simp at h2
              exact h2
          · rw [if_neg hi] at h1
            by_cases hm : ma = 0
            · rw [if_pos hm] at h1
              rcases List.mem_append.mp h1 with h3 | h3
              · exact absurd h3 (retryLoop_no_rawSent _ _ _ _ _)
              · simp at h3
            · rw [if_neg hm] at h1
              exact absurd h1 (retryLoop_no_rawSent _ _ _ _ _)
    · by_cases hj : e = PyExc.jsonDecodeError
      · rcases hpsd : psd with _ | pd
        · have heq : runClient acks n i c k psd =
              ([.logResults c.name], k, psd, some (.uncaught .nameError)) := by
            simp [runClient, if_pos h2, hser, hj, hpsd]
          rw [heq] at h
          simp at h
        · have heq : runClient acks n i c k psd =
              ([.logResults c.name, .logBadJson c.name pd], k, psd, none) := by
            simp [runClient, if_pos h2, hser, hj, hpsd]
          rw [heq] at h
          simp at h
      · have heq : runClient acks n i c k psd =
            ([.logResults c.name], k, psd, some (.uncaught e)) := by
          simp [runClient, if_pos h2, hser, hj]
        rw [heq] at h
        simp at h
  · have heq : runClient acks n i c k psd = ([], k, psd, none) := by
      simp [runClient, if_neg h2]
    rw [heq] at h
    simp at h

theorem mainLoop_cons_ok (acks : Nat → Ack) (n : Nat) (c : Collector)
    (rest : List Collector) (i k : Nat) (psd : Option (List Char))
    (evs : List Event) (k' : Nat) (psd' : Option (List Char))
    (h : runClient acks n i c k psd = (evs, k', psd', none)) :
    mainLoop acks n (c :: rest) i k psd =
      (evs ++ (mainLoop acks n rest (i + 1) k' psd').1,
        (mainLoop acks n rest (i + 1) k' psd').2) := by
  simp only [mainLoop, h]

theorem mainLoop_cons_fatal (acks : Nat → Ack) (n : Nat) (c : Collector)
    (rest : List Collector) (i k : Nat) (psd : Option (List Char))
    (evs : List Event) (k' : Nat) (psd' : Option (List Char)) (f : Fatal)
    (h : runClient acks n i c k psd = (evs, k', psd', some f)) :
    mainLoop acks n (c :: rest) i k psd = (evs, some f) := by
  simp only [mainLoop, h]

/-- C7: if the server returns empty acknowledgment bytes for the second of
three collectors (after the first completed without fatal outcome), the
run aborts with the `InterruptedError` at that point: the trace ends at
that send attempt — it does not depend on the third collector, which is
never attempted — and `DONE` is never sent. -/
theorem fatal_short_circuit (acks : Nat → Ack) (c1 c2 c3 : Collector)
    (ev1 : List Event) (k1 : Nat) (psd1 : Option (List Char)) (sd : List Char)
    (len : Int)
    (h1 : runClient acks 3 0 c1 0 none = (ev1, k1, psd1, none))
    (h2 : 200 ≤ c2.status ∧ c2.status < 300) (hser : c2.ser = .ok sd)
    (hlen : consume_length_header ((acks k1).header.take 32) = some len)
    (hneg : ¬ len < 0)
    (hempty : (acks k1).body.take len.toNat = []) :
    mainRun [c1, c2, c3] acks =
      (ev1 ++ [Event.logResults c2.name, Event.frameSent (add_length_header sd)],
        some Fatal.interrupted) ∧
      Event.rawSent doneTok ∉ (mainRun [c1, c2, c3] acks).1 := by
  have hst : accept_status ((acks k1).body.take len.toNat) = .connectionClosed := by
    rw [hempty]; rfl
  have hloop : retryLoop acks sd 3 k1 =
      ([.frameSent (add_length_header sd)], k1 + 1, .error .interrupted) :=
    retryLoop_step_closed acks sd 2 k1 len hlen hneg hst
  have hrc : runClient acks 3 1 c2 k1 psd1 =
      ([.logResults c2.name, .frameSent (add_length_header sd)], k1 + 1, some sd,
        some .interrupted) := by
    simp [runClient, if_pos h2, hser, hloop]
  have hm2 : mainLoop acks 3 [c2, c3] 1 k1 psd1 =
      ([.logResults c2.name, .frameSent (add_length_header sd)], some .interrupted) :=
    mainLoop_cons_fatal acks 3 c2 [c3] 1 k1 psd1 _ _ _ _ hrc
  have hmain : mainRun [c1, c2, c3] acks =
      (ev1 ++ [Event.logResults c2.name, Event.frameSent (add_length_header sd)],
        some Fatal.interrupted) := by
    unfold mainRun
    rw [show ([c1, c2, c3] : List Collector).length = 3 from rfl,
      mainLoop_cons_ok acks 3 c1 [c2, c3] 0 0 none ev1 k1 psd1 h1, hm2]
  refine ⟨hmain, ?_⟩
  rw [hmain]
  intro hmem
  rcases List.mem_append.mp hmem with hmem1 | hmem1
  · have hbn := runClient_rawSent acks 3 0 c1 0 none doneTok (by rw [h1]; exact hmem1)
    exact absurd hbn (by decide)
  · simp at hmem1

/-- Witness for C7: three collectors against a server that accepts the
first payload and then closes the stream. -/
theorem fatal_short_circuit_witness :
    mainRun [cOk, cOk, cOk] (fun k => if k = 0 then okAck else emptyAck) =
      ([.logResults "ok", .frameSent (add_length_header ['x']), .rawSent nextTok] ++
        [Event.logResults "ok", Event.frameSent (add_length_header ['x'])],
        some Fatal.interrupted) ∧
      Event.rawSent doneTok ∉
        (mainRun [cOk, cOk, cOk] (fun k => if k = 0 then okAck else emptyAck)).1 :=
  fatal_short_circuit (fun k => if k = 0 then okAck else emptyAck) cOk cOk cOk
    [.logResults "ok", .frameSent (add_length_header ['x']), .rawSent nextTok]
    1 (some ['x']) ['x'] 0 (by decide) (by decide) (by decide) (by decide)
    (by decide) (by decide)

/-- C8 corrected: an acknowledgment whose 32-byte length header fails to
decode is not retryable — the `ValueError` raised by `int()` propagates
uncaught and aborts the whole run after a single send: no retry-budget
unit is consumed, no later collector is attempted (the trace does not
depend on `rest`), and `DONE` is never sent. -/
theorem decode_error_aborts_run (acks : Nat → Ack) (c : Collector) (sd : List Char)
    (rest : List Collector)
    (h2 : 200 ≤ c.status ∧ c.status < 300) (hser : c.ser = .ok sd)
    (hbad : consume_length_header ((acks 0).header.take 32) = none) :
    mainRun (c :: rest) acks =
      ([Event.logResults c.name, Event.frameSent (add_length_header sd)],
        some (Fatal.uncaught PyExc.valueError)) ∧
      Event.rawSent doneTok ∉ (mainRun (c :: rest) acks).1 ∧
      (mainRun (c :: rest) acks).1.countP isFrameEv = 1 := by
  have hloop : retryLoop acks sd 3 0 =
      ([.frameSent (add_length_header sd)], 1, .error (.uncaught .valueError)) :=
    retryLoop_step_none acks sd 2 0 hbad
  have hrc : runClient acks (c :: rest).length 0 c 0 none =
      ([.logResults c.name, .frameSent (add_length_header sd)], 1, some sd,
        some (.uncaught .valueError)) := by
    simp [runClient, if_pos h2, hser, hloop]
  have hmain : mainRun (c :: rest) acks =
      ([Event.logResults c.name, Event.frameSent (add_length_header sd)],
        some (Fatal.uncaught PyExc.valueError)) := by
    unfold mainRun
    exact mainLoop_cons_fatal acks (c :: rest).length c rest 0 0 none _ _ _ _ hrc
  refine ⟨hmain, ?_, ?_⟩
  · rw [hmain]
    simp
  · rw [hmain]
    simp [List.countP_cons, isFrameEv]

/-- Witness for C8's corrected statement: a server answering with 32 `q`
bytes as the ack header. -/
theorem decode_error_aborts_run_witness :
    mainRun [cOk, cOk] (fun _ => ⟨List.replicate 32 'q', []⟩) =
      ([Event.logResults "ok", Event.frameSent (add_length_header ['x'])],
        some (Fatal.uncaught PyExc.valueError)) ∧
      Event.rawSent doneTok ∉
        (mainRun [cOk, cOk] (fun _ => ⟨List.replicate 32 'q', []⟩)).1 ∧
      (mainRun [cOk, cOk] (fun _ => ⟨List.replicate 32 'q', []⟩)).1.countP isFrameEv = 1 :=
  decode_error_aborts_run (fun _ => ⟨List.replicate 32 'q', []⟩) cOk ['x'] [cOk]
    (by decide) (by decide) (by decide)

/-- C8 counterexample: with a server whose ack header never parses, the
driver does not treat the decode failure as a retryable malformed status:
the run crashes with an uncaught `ValueError` after a single send instead
of consuming the retry budget and continuing. -/
theorem decode_error_not_retryable :
    (mainRun [cOk, cOk] (fun _ => ⟨List.replicate 32 'q', []⟩)).2 =
        some (Fatal.uncaught PyExc.valueError) ∧
      (mainRun [cOk, cOk] (fun _ => ⟨List.replicate 32 'q', []⟩)).1.countP isFrameEv = 1 := by
  decide

/-- C4 (code bug): a collector whose results are not JSON-serializable is
fatal to the whole run.  In CPython `json.dumps` raises `TypeError` on an
unserializable object, but the handler catches only `json.JSONDecodeError`,
so the exception escapes `main`: no frame is sent, no later collector runs,
no `DONE` is sent.  Even the hypothetical `JSONDecodeError` path crashes on
the first collector with `NameError`, because its log line reads the
still-unbound `send_data`. -/
theorem serialization_failure_fatal :
    mainRun [⟨"guardian", 200, .raises .typeError⟩] (fun _ => okAck) =
        ([Event.logResults "guardian"], some (Fatal.uncaught PyExc.typeError)) ∧
      mainRun [⟨"guardian", 200, .raises .jsonDecodeError⟩] (fun _ => okAck) =
        ([Event.logResults "guardian"], some (Fatal.uncaught PyExc.nameError)) := by
  decide

/-- Witness for C2: a collector retried three times against a server that
always sends a framed `BAD` acknowledgment. -/
theorem retry_bound_witness :
    (runClient (fun _ => badAck) 1 0 cOk 0 none).2.2.2 = none ∧
      (runClient (fun _ => badAck) 1 0 cOk 0 none).1.filter isFrameEv =
        List.replicate 3 (Event.frameSent (add_length_header ['x'])) ∧
      Event.logFailed ['x'] ∈ (runClient (fun _ => badAck) 1 0 cOk 0 none).1 :=
  retry_bound (fun _ => badAck) cOk ['x'] 1 0 0 none (by decide) (by decide)
    (fun j _ => by show retryableAck badAck = true; decide)

/-! ## Failure conditions of header decoding -/

theorem mem_dropWhile_of_mem (p : Char → Bool) (c : Char) (s : List Char)
    (hc : c ∈ s) (hp : p c = false) : c ∈ s.dropWhile p := by
  induction s with
  | nil => simp at hc
  | cons a t ih =>
    by_cases ha : p a = true
    · rw [dropWhile_cons_pos p a t ha]
      rcases List.mem_cons.mp hc with rfl | h
      · rw [hp] at ha
        exact absurd ha (by simp)
      · exact ih h
    · rw [dropWhile_cons_neg p a t (by simpa using ha)]
      exact hc

theorem mem_trimBoth_of_mem (p : Char → Bool) (c : Char) (s : List Char)
    (hc : c ∈ s) (hp : p c = false) : c ∈ trimBoth p s := by
  unfold trimBoth
  rw [List.mem_reverse]
  exact mem_dropWhile_of_mem p c _ (List.mem_reverse.mpr
    (mem_dropWhile_of_mem p c s hc hp)) hp

/-- Characters accepted after the leading digit of a Python integer
literal are digits and underscores only. -/
theorem usAfterDigit_mem :
    ∀ m : List Char, usAfterDigit m = true →
      ∀ c ∈ m, c.isDigit = true ∨ c = '_'
  | [], _, c, hc => by simp at hc
  | [d], h, c, hc => by
    simp only [List.mem_singleton] at hc
    subst hc
    simp only [usAfterDigit] at h
    exact Or.inl h
  | d :: d2 :: rest, h, c, hc => by
    by_cases hd : d = '_'
    · rw [show usAfterDigit (d :: d2 :: rest) = (d2.isDigit && usAfterDigit rest)
        from by simp [usAfterDigit, hd]] at h
      rcases List.mem_cons.mp hc with rfl | hc1
      · exact Or.inr hd
      · rcases List.mem_cons.mp hc1 with rfl | hc2
        · exact Or.inl (by simpa using (Bool.and_eq_true_iff.mp h).1)
        · exact usAfterDigit_mem rest (Bool.and_eq_true_iff.mp h).2 c hc2
    · rw [show usAfterDigit (d :: d2 :: rest) = (d.isDigit && usAfterDigit (d2 :: rest))
        from by simp [usAfterDigit, hd]] at h
      rcases List.mem_cons.mp hc with rfl | hc1
      · exact Or.inl (by simpa using (Bool.and_eq_true_iff.mp h).1)
      · exact usAfterDigit_mem (d2 :: rest) (Bool.and_eq_true_iff.mp h).2 c hc1

theorem parseUnsigned_none_of_bad (m : List Char) (c : Char) (hc : c ∈ m)
    (h1 : c.isDigit = false) (h4 : c ≠ '_') : parseUnsigned m = none := by
  cases m with
  | nil => rfl
  | cons d rest =>
    have hcond : (d.isDigit && usAfterDigit rest) = false := by
      by_contra hb
      rw [Bool.not_eq_false, Bool.and_eq_true] at hb
      rcases List.mem_cons.mp hc with rfl | hcr
      · rw [h1] at hb
        exact absurd hb.1 (by simp)
      · rcases usAfterDigit_mem rest hb.2 c hcr with hd | hd
        · rw [h1] at hd
          exact absurd hd (by simp)
        · exact h4 hd
    simp [parseUnsigned, hcond]

theorem pyInt_none_of_bad (s : List Char) (c : Char) (hc : c ∈ s)
    (h1 : c.isDigit = false) (h2 : c ≠ '+') (h3 : c ≠ '-') (h4 : c ≠ '_')
    (h5 : isWs c = false) : pyInt s = none := by
  have hmem : c ∈ trimBoth isWs s := mem_trimBoth_of_mem isWs c s hc h5
  rcases ht : trimBoth isWs s with _ | ⟨d, rest⟩
  · simp only [pyInt, ht]
  · rw [ht] at hmem
    simp only [pyInt, ht]
    by_cases hd1 : d = '+'
    · rw [if_pos hd1]
      have hcr : c ∈ rest := by
        rcases List.mem_cons.mp hmem with rfl | h
        · exact absurd hd1 h2
        · exact h
      rw [parseUnsigned_none_of_bad rest c hcr h1 h4]
      rfl
    · rw [if_neg hd1]
      by_cases hd2 : d = '-'
      · rw [if_pos hd2]
        have hcr : c ∈ rest := by
          rcases List.mem_cons.mp hmem with rfl | h
          · exact absurd hd2 h3
          · exact h
        rw [parseUnsigned_none_of_bad rest c hcr h1 h4]
        rfl
      · rw [if_neg hd2]
        rw [parseUnsigned_none_of_bad (d :: rest) c hmem h1 h4]
        rfl

/-- C9 corrected: header decoding fails with a `ValueError` whenever the
trimmed remainder contains a character that is not an ASCII digit, a
sign, an underscore, or whitespace; but the remainder may be a signed
literal such as `-5`, which parses, so decoding can return a negative
byte count (see the counterexample). -/
theorem malformed_header_decode_fails (raw : List Char) (c : Char)
    (hc : c ∈ trimBoth inStrip raw) (h1 : c.isDigit = false) (h2 : c ≠ '+')
    (h3 : c ≠ '-') (h4 : c ≠ '_') (h5 : isWs c = false) :
    consume_length_header raw = none :=
  pyInt_none_of_bad _ c hc h1 h2 h3 h4 h5

/-- Witness for C9's corrected statement: 32 `q` bytes fail to decode. -/
theorem malformed_header_decode_fails_witness :
    consume_length_header (List.replicate 32 'q') = none :=
  malformed_header_decode_fails (List.replicate 32 'q') 'q' (by decide) (by decide)
    (by decide) (by decide) (by decide) (by decide)

/-- C9 counterexample: the 32-byte header `-5` padded with spaces leaves
the remainder `-5`, which is not a valid non-negative integer, yet
decoding does not fail: it returns the negative count `-5`. -/
theorem negative_header_decode :
    consume_length_header (['-', '5'] ++ List.replicate 30 ' ') = some (-5) := by
  decide

/-- Python `bytes.ljust(32)` leaves a string of 32 or more bytes unchanged. -/
theorem pyLjust_of_ge (s : List Char) (h : 32 ≤ s.length) : pyLjust s 32 = s := by
  unfold pyLjust
  rw [show 32 - s.length = 0 by omega]
  simp

/-- C5 corrected: for a payload whose header text exceeds the 32-byte
field, `add_length_header` does not fail: `bytes.ljust` returns a string
longer than the width unchanged, so the result is the unpadded header
text followed by the payload — a frame whose header field is longer than
32 bytes. -/
theorem oversized_encode_no_failure (data : List Char)
    (h : 32 ≤ (headerText data.length).length) :
    add_length_header data = headerText data.length ++ data := by
  unfold add_length_header
  rw [pyLjust_of_ge _ h]

/-- Witness for C5's corrected statement at a payload of `10 ^ 23` zero
bytes. -/
theorem oversized_encode_no_failure_witness :
    add_length_header (List.replicate (10 ^ 23) '0') =
      headerText (List.replicate (10 ^ 23) '0').length ++
        List.replicate (10 ^ 23) '0' :=
  oversized_encode_no_failure (List.replicate (10 ^ 23) '0')
    (by rw [List.length_replicate]; decide)

/-- C5 counterexample: at a payload of `10 ^ 23` bytes the header text
takes 33 bytes.  The spec-modelled encoder fails (size-overflow), but the
source's `add_length_header` still produces a frame: the unpadded 33-byte
header followed by the payload. -/
theorem oversized_encode_produces_frame :
    add_length_header_spec (List.replicate (10 ^ 23) '0') = none ∧
      add_length_header (List.replicate (10 ^ 23) '0') =
        headerText (10 ^ 23) ++ List.replicate (10 ^ 23) '0' := by
  have hlen : (List.replicate (10 ^ 23) '0').length = 10 ^ 23 :=
    List.length_replicate _ _
  have hht : (headerText (10 ^ 23)).length = 33 := by rfl
  constructor
  · unfold add_length_header_spec
    rw [if_pos (by rw [hlen, hht]; omega)]
  · unfold add_length_header
    rw [hlen, pyLjust_of_ge _ (by rw [hht]; omega)]

/-! ## Session framing -/

theorem retryLoop_countP_next (acks : Nat → Ack) (sd : List Char) (ma k : Nat) :
    (retryLoop acks sd ma k).1.countP isNextEv = 0 := by
  rw [List.countP_eq_zero]
  intro e he
  rcases retryLoop_events acks sd ma k e he with h | ⟨cls, h⟩ <;> subst h <;>
    simp [isNextEv]

theorem sentOk_true (c : Collector) (sd : List Char)
    (h2 : 200 ≤ c.status ∧ c.status < 300) (hser : c.ser = .ok sd) :
    sentOk c = true := by
  simp [sentOk, if_pos h2, hser]

/-- The number of `NEXT` tokens one collector's processing emits, given
that it ends without a fatal outcome: one exactly when the collector is
not last and reached the send loop. -/
theorem runClient_next_count (acks : Nat → Ack) (n i : Nat) (c : Collector)
    (k : Nat) (psd : Option (List Char))
    (h : (runClient acks n i c k psd).2.2.2 = none) :
    (runClient acks n i c k psd).1.countP isNextEv =
      if decide (i < n - 1) && sentOk c then 1 else 0 := by
  by_cases h2 : 200 ≤ c.status ∧ c.status < 300
  · rcases hser : c.ser with sd | e
    · have hso : sentOk c = true := sentOk_true c sd h2 hser
      rcases hr : (retryLoop acks sd 3 k).2.2 with f | ma
      · have heq : runClient acks n i c k psd =
            (.logResults c.name :: (retryLoop acks sd 3 k).1,
              (retryLoop acks sd 3 k).2.1, some sd, some f) := by
          simp [runClient, if_pos h2, hser, hr]
        rw [heq] at h
        simp at h
      · have heq : runClient acks n i c k psd =
            (.logResults c.name ::
              (if i < n - 1
                then (if ma = 0 then (retryLoop acks sd 3 k).1 ++ [.logFailed sd]
                      else (retryLoop acks sd 3 k).1) ++ [.rawSent nextTok]
                else (if ma = 0 then (retryLoop acks sd 3 k).1 ++ [.logFailed sd]
                      else (retryLoop acks sd 3 k).1)),
              (retryLoop acks sd 3 k).2.1, some sd, none) := by
          simp [runClient, if_pos h2, hser, hr]
        rw [heq, hso]
        by_cases hi : i < n - 1 <;>
          by_cases hm : ma = 0 <;>
            simp [hi, hm, List.countP_cons, List.countP_append,
              retryLoop_countP_next, isNextEv]
    · by_cases hj : e = PyExc.jsonDecodeError
      · rcases psd with _ | pd
        · have heq : runClient acks n i c k none =
              ([.logResults c.name], k, none, some (.uncaught .nameError)) := by
            simp [runClient, if_pos h2, hser, hj]
          rw [heq] at h
          simp at h
        · have heq : runClient acks n i c k (some pd) =
              ([.logResults c.name, .logBadJson c.name pd], k, some pd, none) := by
            simp [runClient, if_pos h2, hser, hj]
          rw [heq]
          simp [sentOk, if_pos h2, hser, List.countP_cons, isNextEv]
      · have heq : runClient acks n i c k psd =
            ([.logResults c.name], k, psd, some (.uncaught e)) := by
          simp [runClient, if_pos h2, hser, hj]
        rw [heq] at h
        simp at h
  · have heq : runClient acks n i c k psd = ([], k, psd, none) := by
      simp [runClient, if_neg h2]
    rw [heq]
    simp [sentOk, if_neg h2]

/-- Loop invariant for the corrected session-framing claim: a non-fatal
run of the remaining collectors ends with the `DONE` token and emits one
`NEXT` per non-last collector that reached the send loop. -/
theorem mainLoop_framing (acks : Nat → Ack) (n : Nat) :
    ∀ (rest : List Collector) (i k : Nat) (psd : Option (List Char)),
      (mainLoop acks n rest i k psd).2 = none →
      ∃ core, (mainLoop acks n rest i k psd).1 = core ++ [Event.rawSent doneTok] ∧
        (mainLoop acks n rest i k psd).1.countP isNextEv =
          (List.enumFrom i rest).countP
            (fun p => decide (p.1 < n - 1) && sentOk p.2) := by
  intro rest
  induction rest with
  | nil =>
    intro i k psd _
    exact ⟨[], rfl, rfl⟩
  | cons c rest ih =>
    intro i k psd h
    rcases hrc : runClient acks n i c k psd with ⟨evs, k', psd', fatal⟩
    rcases fatal with _ | f
    · rcases hml : mainLoop acks n rest (i + 1) k' psd' with ⟨evs2, out2⟩
      have hcons : mainLoop acks n (c :: rest) i k psd = (evs ++ evs2, out2) := by
        have h6 := mainLoop_cons_ok acks n c rest i k psd evs k' psd' hrc
        simp only [hml] at h6
        exact h6
      simp only [hcons] at h ⊢
      obtain ⟨core2, hcore, hcount⟩ := ih (i + 1) k' psd' (by rw [hml]; exact h)
      simp only [hml] at hcore hcount
      have hevs : evs.countP isNextEv =
          if decide (i < n - 1) && sentOk c then 1 else 0 := by
        have h4 : (runClient acks n i c k psd).2.2.2 = none := by rw [hrc]
        have h5 := runClient_next_count acks n i c k psd h4
        simp only [hrc] at h5
        exact h5
      refine ⟨evs ++ core2, ?_, ?_⟩
      · rw [List.append_assoc, hcore]
      · rw [List.countP_append, hcount, hevs, List.enumFrom_cons, List.countP_cons]
        by_cases hb : (decide (i < n - 1) && sentOk c) = true <;> simp [hb] <;> omega
    · have hcons := mainLoop_cons_fatal acks n c rest i k psd evs k' psd' f hrc
      rw [hcons] at h
      simp at h

/-- C1 corrected: every run that completes without a fatal outcome ends
its byte stream with the `DONE` token (no trailing `NEXT`), and sends one
`NEXT` for each non-last collector whose request returned 2xx and whose
results serialized — skipped and serialization-failed collectors produce
no `NEXT`, because the `NEXT` send sits inside the 2xx branch. -/
theorem session_framing (clients : List Collector) (acks : Nat → Ack)
    (h : (mainRun clients acks).2 = none) :
    ∃ core, (mainRun clients acks).1 = core ++ [Event.rawSent doneTok] ∧
      (mainRun clients acks).1.countP isNextEv =
        clients.enum.countP
          (fun p => decide (p.1 < clients.length - 1) && sentOk p.2) := by
  have hres := mainLoop_framing acks clients.length clients 0 0 none h
  simpa [mainRun, List.enum] using hres

/-- Witness for C1's corrected statement: three collectors of which the
middle one is skipped produce exactly one `NEXT` and end with `DONE`. -/
theorem session_framing_witness :
    ∃ core, (mainRun [cOk, cSkip, cOk] (fun _ => okAck)).1 =
        core ++ [Event.rawSent doneTok] ∧
      (mainRun [cOk, cSkip, cOk] (fun _ => okAck)).1.countP isNextEv =
        ([cOk, cSkip, cOk] : List Collector).enum.countP
          (fun p => decide (p.1 < ([cOk, cSkip, cOk] : List Collector).length - 1) &&
            sentOk p.2) :=
  session_framing [cOk, cSkip, cOk] (fun _ => okAck) (by decide)

/-- C1 counterexample: with two collectors of which the first is skipped
(request returns 404) and the second accepted, the run completes without
fatal error yet no `NEXT` token is ever sent: the `NEXT` send sits inside
the 2xx branch of the loop body, so a skipped non-last collector produces
no separator. -/
theorem skipped_collector_sends_no_next :
    (mainRun [cSkip, cOk] (fun _ => okAck)).2 = none ∧
      Event.rawSent nextTok ∉ (mainRun [cSkip, cOk] (fun _ => okAck)).1 := by
  decide

end GoodNews
